import Mathlib

/-!
Shallow embedding of `src/build_index.py` (the private-pypi wheelhouse builder)
and proofs about its version-reconciliation pipeline.

Python strings are modelled as `String`, Python lists and tuples as `List`,
and the exceptions the modelled code paths can raise as an explicit error
type threaded through `Except`. Characters are ASCII throughout, so Python's
`str.isdigit` on a single character coincides with `Char.isDigit`.
-/

/-- The Python exception kinds the modelled code paths can raise. -/
inductive PyErr where
  | indexError : PyErr
  | keyError : String → PyErr
  | valueError : PyErr
deriving DecidableEq, Repr

/-- Python list subscripting `l[i]` for a non-negative index: raises
`IndexError` when the index is out of range. -/
def pyGet {α : Type} (l : List α) (i : Nat) : Except PyErr α :=
  match l.get? i with
  | some x => Except.ok x
  | none => Except.error PyErr.indexError

/-- Python string subscripting `s[i]` for a non-negative index. -/
def pyStrGet (s : String) (i : Nat) : Except PyErr Char :=
  pyGet s.toList i

/-- Python `str.split(sep)` for a single-character separator, at the level of
character lists: the result always has one more element than there are
occurrences of the separator. -/
def splitOnCharList (sep : Char) : List Char → List (List Char)
  | [] => [[]]
  | c :: rest =>
    match splitOnCharList sep rest with
    | [] => [[c]]
    | h :: t => if c = sep then [] :: h :: t else (c :: h) :: t

/-- Python `str.split(sep)` for a single-character separator. -/
def pySplit (sep : Char) (s : String) : List String :=
  (splitOnCharList sep s.toList).map (fun cs => String.mk cs)

/-- Line 92 of `build_index.py`: the reconciliation expression
`tuple([version for version in available_versions
        if version not in self.existing_versions[package_name]])`. -/
def needed_versions (existing : List String) (available_versions : List String) :
    List String :=
  available_versions.filter (fun version => decide (¬ version ∈ existing))

/-- The inner loop of `_detect_existing` (`build_index.py` lines 72-79) over
the globbed wheel filenames of one package, with `acc` the `package_list`
accumulated so far. Splitting, positional indexing, the package-name guard,
and the digit-guarded `v` alias follow the source line by line; an exception
aborts the whole scan and discards the partial list, exactly as in Python. -/
def detectLoop (package_name : String) (acc : List String) :
    List String → Except PyErr (List String)
  | [] => Except.ok acc
  | filename :: rest => do
    let filename_split := pySplit '-' filename
    let whl_package ← pyGet filename_split 0
    let whl_version ← pyGet filename_split 1
    let acc' ←
      if whl_package = package_name then do
        let c ← pyStrGet whl_version 0
        if c.isDigit then
          Except.ok (acc ++ [whl_version, "v" ++ whl_version])
        else
          Except.ok (acc ++ [whl_version])
      else
        Except.ok acc
    detectLoop package_name acc' rest

/-- `_detect_existing` restricted to one package (`build_index.py` lines
68-80): the tuple stored in `self.__existing_versions[package_name]`, given
the list of `*.whl` filenames found in the package directory. -/
def detect_existing (package_name : String) (files : List String) :
    Except PyErr (List String) :=
  detectLoop package_name [] files

/-- `package_name_from_repo` (`build_index.py` line 48):
`repo.split('/')[-1]`. The split of any string is nonempty, so the `[-1]`
subscript always succeeds; the default is never used. -/
def package_name_from_repo (repo : String) : String :=
  (pySplit '/' repo).getLastD ""

/-- `repo_owner_and_package_name_from_repo` (`build_index.py` line 52):
`repo.split('/')` returned as-is. Despite the `tuple[str,str]` annotation it
is a list of whatever length the split produces; arity is only enforced by
tuple unpacking at the call sites. -/
def repo_owner_and_package_name_from_repo (repo : String) : List String :=
  pySplit '/' repo

/-- Python two-target tuple unpacking `a, b = l`: raises `ValueError` unless
the sequence has exactly two elements. -/
def pyUnpack2 {α : Type} : List α → Except PyErr (α × α)
  | [a, b] => Except.ok (a, b)
  | _ => Except.error PyErr.valueError

/-- The data flow of `_clone_repo` (`build_index.py` lines 82-92): unpack
owner and package name from the repo identifier, then reconcile the
repository's tag list against the package's existing versions. The git
side effects between the unpack and the reconciliation carry no data that
reaches `needed_versions`, so `tags` stands for `_get_repo_tags`'s output
and `existing_versions` for the mapping built by `_detect_existing`. -/
def clone_repo (existing_versions : String → List String) (repo : String)
    (tags : List String) : Except PyErr (String × List String) := do
  let (_repo_owner, package_name) ←
    pyUnpack2 (repo_owner_and_package_name_from_repo repo)
  Except.ok (package_name, needed_versions (existing_versions package_name) tags)

/-- The YAML configuration as the builder reads it: a dictionary that may or
may not carry each of the two keys the code subscripts. -/
structure Config where
  repos : Option (List String)
  clone_dir : Option String

/-- The `config = dict()` that `main` (`build_index.py` lines 162-165)
substitutes when the configuration file is absent. -/
def emptyConfig : Config := { repos := none, clone_dir := none }

/-- Python dict subscripting `config[key]`: raises `KeyError(key)` when the
key is absent. -/
def pyDictGet {α : Type} (entry : Option α) (key : String) : Except PyErr α :=
  match entry with
  | some v => Except.ok v
  | none => Except.error (PyErr.keyError key)

/-- The state `WheelhouseBuilder.__init__` establishes. -/
structure Builder where
  repos : List String
  clone_dir : String
  package_names : List String
  existing_versions : List (String × List String)

/-- `WheelhouseBuilder.__init__` (`build_index.py` lines 17-24): subscript
`config['repos']` and `config['clone_dir']`, derive the package names, and
scan the existing wheels per package (`glob` abstracts
`package_path.glob('*.whl')`). `_make_dirs` is a filesystem side effect with
no data flow into the builder state and is elided. -/
def builderInit (config : Config) (glob : String → List String) :
    Except PyErr Builder := do
  let repos ← pyDictGet config.repos "repos"
  let clone_dir ← pyDictGet config.clone_dir "clone_dir"
  let package_names := repos.map package_name_from_repo
  let existing ← package_names.mapM (fun pn => do
    let vs ← detect_existing pn (glob pn)
    Except.ok (pn, vs))
  Except.ok { repos := repos, clone_dir := clone_dir,
              package_names := package_names, existing_versions := existing }

/-- The fixed text `_create_index` writes before the anchor lines. -/
def indexHeader : String := "<!DOCTYPE html>\n<html>\n  <body>\n"

/-- The fixed text `_create_index` writes after the anchor lines. -/
def indexFooter : String := "  </body>\n</html>"

/-- The anchor line `_create_index` writes for one matching wheel
(`build_index.py` line 141). -/
def entryLine (filename : String) (whl_version : String) : String :=
  "    <a href=\"" ++ filename ++ "\">v" ++ whl_version ++ "</a><br>\n"

/-- Python `sorted` over the globbed wheel filenames
(`build_index.py` line 136). -/
def sortedFiles (files : List String) : List String :=
  files.mergeSort (fun a b => decide (a ≤ b))

/-- The loop of `_create_index` (`build_index.py` lines 136-141), with `acc`
the text written so far. -/
def createIndexLoop (package_name : String) (acc : String) :
    List String → Except PyErr String
  | [] => Except.ok (acc ++ indexFooter)
  | filename :: rest => do
    let filename_split := pySplit '-' filename
    let whl_package ← pyGet filename_split 0
    let whl_version ← pyGet filename_split 1
    let acc' := if whl_package = package_name
      then acc ++ entryLine filename whl_version
      else acc
    createIndexLoop package_name acc' rest

/-- `_create_index` (`build_index.py` lines 130-143): the full text written
to `simple/<package_name>/index.html`, given the globbed wheel filenames of
the package directory. -/
def create_index (package_name : String) (files : List String) :
    Except PyErr String :=
  createIndexLoop package_name indexHeader (sortedFiles files)

/-- First '-'-separated field of a filename. -/
def firstField (filename : String) : String :=
  (pySplit '-' filename).getD 0 ""

/-- Second '-'-separated field of a filename. -/
def secondField (filename : String) : String :=
  (pySplit '-' filename).getD 1 ""

/-- The reconciliation algorithm exactly as the spec's section 4.1 words it:
one pass over the tags in order, one membership test per tag, absent tags
appended to the result. Stated from the spec to be compared with the
source-derived `needed_versions`. -/
def neededSpec (existing : List String) : List String → List String
  | [] => []
  | tag :: rest =>
    if tag ∈ existing then neededSpec existing rest
    else tag :: neededSpec existing rest

/-- The version forms one artifact filename contributes to existing-versions,
as the spec's section 4.1 words it: the second '-'-field, preceded by nothing
when the filename's first field is not the package name, plus a `v` alias
when it starts with a digit. Stated from the spec to be compared with the
source-derived `detect_existing`. -/
def specRegisteredForms (package_name : String) (filename : String) :
    List String :=
  let whl_version := secondField filename
  if firstField filename = package_name then
    if (whl_version.toList.headD 'x').isDigit then
      [whl_version, "v" ++ whl_version]
    else
      [whl_version]
  else
    []

/-! ### Basic facts about the embedded Python primitives -/

theorem splitOnCharList_ne_nil (sep : Char) (l : List Char) :
    splitOnCharList sep l ≠ [] := by
  cases l with
  | nil => simp [splitOnCharList]
  | cons c rest =>
    simp only [splitOnCharList]
    cases splitOnCharList sep rest with
    | nil => simp
    | cons h t =>
      by_cases hc : c = sep <;> simp [hc]

theorem length_splitOnCharList (sep : Char) (l : List Char) :
    (splitOnCharList sep l).length = l.count sep + 1 := by
  induction l with
  | nil => simp [splitOnCharList]
  | cons c rest ih =>
    simp only [splitOnCharList]
    cases hr : splitOnCharList sep rest with
    | nil => exact absurd hr (splitOnCharList_ne_nil sep rest)
    | cons h t =>
      rw [hr] at ih
      by_cases hc : c = sep
      · simp only [hc, if_pos rfl, List.length_cons, List.count_cons]
        simp_all
      · simp only [if_neg hc, List.length_cons, List.count_cons]
        simp_all [hc]

theorem pySplit_ne_nil (sep : Char) (s : String) : pySplit sep s ≠ [] := by
  simp [pySplit, splitOnCharList_ne_nil]

theorem length_pySplit (sep : Char) (s : String) :
    (pySplit sep s).length = s.toList.count sep + 1 := by
  simp [pySplit, length_splitOnCharList]

theorem pyGet_eq_ok {α : Type} (l : List α) (i : Nat) (d : α)
    (h : i < l.length) : pyGet l i = Except.ok (l.getD i d) := by
  unfold pyGet
  rw [List.get?_eq_get h]
  simp [List.getD_eq_getElem?_getD, List.getElem?_eq_getElem h, List.get_eq_getElem]

theorem pyGet_eq_err {α : Type} (l : List α) (i : Nat)
    (h : l.length ≤ i) : pyGet l i = Except.error PyErr.indexError := by
  unfold pyGet
  rw [List.get?_eq_none.mpr h]

theorem pyStrGet_empty : pyStrGet "" 0 = Except.error PyErr.indexError := rfl

theorem pyStrGet_zero (s : String) (h : s ≠ "") :
    pyStrGet s 0 = Except.ok (s.toList.headD 'x') := by
  have hd : s.toList ≠ [] := by
    intro hnil
    exact h (String.ext hnil)
  cases hs : s.toList with
  | nil => exact absurd hs hd
  | cons c cs =>
    have hdata : s.data = c :: cs := hs
    simp [pyStrGet, pyGet, hs, hdata]

theorem exceptBind_ok {α β : Type} (a : α) (f : α → Except PyErr β) :
    (Except.ok a : Except PyErr α) >>= f = f a := rfl

theorem exceptBind_err {α β : Type} (e : PyErr) (f : α → Except PyErr β) :
    (Except.error e : Except PyErr α) >>= f = Except.error e := rfl

theorem pyGet_split_zero (f : String) :
    pyGet (pySplit '-' f) 0 = Except.ok (firstField f) :=
  pyGet_eq_ok (pySplit '-' f) 0 "" (List.length_pos.mpr (pySplit_ne_nil '-' f))

theorem pyGet_split_one (f : String) (h : 2 ≤ (pySplit '-' f).length) :
    pyGet (pySplit '-' f) 1 = Except.ok (secondField f) :=
  pyGet_eq_ok (pySplit '-' f) 1 "" h

theorem pyGet_split_one_err (f : String) (h : (pySplit '-' f).length < 2) :
    pyGet (pySplit '-' f) 1 = Except.error PyErr.indexError :=
  pyGet_eq_err (pySplit '-' f) 1 (Nat.lt_succ_iff.mp h)

/-! ### Stepping lemmas for the `_detect_existing` loop -/

theorem detectLoop_cons_short (package_name : String) (acc : List String)
    (f : String) (rest : List String) (h : (pySplit '-' f).length < 2) :
    detectLoop package_name acc (f :: rest) = Except.error PyErr.indexError := by
  simp only [detectLoop, pyGet_split_zero, pyGet_split_one_err f h,
    exceptBind_ok, exceptBind_err]

theorem detectLoop_cons_emptyver (package_name : String) (acc : List String)
    (f : String) (rest : List String) (h2 : 2 ≤ (pySplit '-' f).length)
    (hp : firstField f = package_name) (hv : secondField f = "") :
    detectLoop package_name acc (f :: rest) = Except.error PyErr.indexError := by
  simp only [detectLoop, pyGet_split_zero, pyGet_split_one f h2,
    exceptBind_ok, hp, if_pos rfl, if_true, hv, pyStrGet_empty, exceptBind_err]

theorem detectLoop_cons_ok (package_name : String) (acc : List String)
    (f : String) (rest : List String) (h2 : 2 ≤ (pySplit '-' f).length)
    (hv : firstField f = package_name → secondField f ≠ "") :
    detectLoop package_name acc (f :: rest) =
      detectLoop package_name (acc ++ specRegisteredForms package_name f) rest := by
  simp only [detectLoop, pyGet_split_zero, pyGet_split_one f h2, exceptBind_ok]
  by_cases hp : firstField f = package_name
  · rw [if_pos hp, pyStrGet_zero (secondField f) (hv hp), exceptBind_ok]
    by_cases hd : ((secondField f).toList.headD 'x').isDigit
    · rw [if_pos hd]
      have hsp : specRegisteredForms package_name f =
          [secondField f, "v" ++ secondField f] := by
        simp only [specRegisteredForms]
        rw [if_pos hp, if_pos hd]
      rw [hsp]
    · rw [if_neg hd]
      have hsp : specRegisteredForms package_name f = [secondField f] := by
        simp only [specRegisteredForms]
        rw [if_pos hp, if_neg hd]
      rw [hsp]
  · rw [if_neg hp]
    have hsp : specRegisteredForms package_name f = [] := by
      simp only [specRegisteredForms]
      rw [if_neg hp]
    rw [hsp, List.append_nil]

/-- A scan over well-formed filenames succeeds and appends exactly the
registered forms of each file, in file order. -/
theorem detectLoop_ok_run (package_name : String) (files : List String) :
    ∀ acc : List String,
      (∀ f ∈ files, 2 ≤ (pySplit '-' f).length ∧
        (firstField f = package_name → secondField f ≠ "")) →
      detectLoop package_name acc files =
        Except.ok (acc ++ files.flatMap (specRegisteredForms package_name)) := by
  induction files with
  | nil => intro acc _; simp [detectLoop]
  | cons f rest ih =>
    intro acc hwf
    obtain ⟨h2, hv⟩ := hwf f (List.mem_cons_self f rest)
    rw [detectLoop_cons_ok package_name acc f rest h2 hv]
    rw [ih (acc ++ specRegisteredForms package_name f)
      (fun g hg => hwf g (List.mem_cons_of_mem f hg))]
    rw [List.flatMap_cons, List.append_assoc]

/-- A scan over a list containing a filename with fewer than two fields, or
with an empty second field under a matching first field, raises
`IndexError` regardless of where that filename sits. -/
theorem detectLoop_err_run (package_name : String) (files : List String)
    (f : String) (hf : f ∈ files)
    (hbad : (pySplit '-' f).length < 2 ∨
      (2 ≤ (pySplit '-' f).length ∧ firstField f = package_name ∧
        secondField f = "")) :
    ∀ acc : List String,
      detectLoop package_name acc files = Except.error PyErr.indexError := by
  induction files with
  | nil => cases hf
  | cons g rest ih =>
    intro acc
    by_cases hg1 : (pySplit '-' g).length < 2
    · exact detectLoop_cons_short package_name acc g rest hg1
    · have hg2 : 2 ≤ (pySplit '-' g).length := Nat.le_of_not_lt hg1
      by_cases hgbad : firstField g = package_name ∧ secondField g = ""
      · exact detectLoop_cons_emptyver package_name acc g rest hg2 hgbad.1 hgbad.2
      · have hgok : firstField g = package_name → secondField g ≠ "" := by
          intro hp hv
          exact hgbad ⟨hp, hv⟩
        rw [detectLoop_cons_ok package_name acc g rest hg2 hgok]
        rcases List.mem_cons.mp hf with hfg | hfr
        · subst hfg
          rcases hbad with hb | hb
          · exact absurd hb hg1
          · exact absurd ⟨hb.2.1, hb.2.2⟩ hgbad
        · exact ih hfr _

/-! ### The per-package index page -/

/-- The anchor-line block the spec's section 6 describes: one `entryLine` per
artifact whose first field equals the package name, in list order, and
nothing for the others. Stated from the spec to be compared with the
source-derived `create_index`. -/
def specIndexEntries (package_name : String) (files : List String) : String :=
  String.join ((files.filter (fun f => decide (firstField f = package_name))).map
    (fun f => entryLine f (secondField f)))

theorem foldl_append_str (l : List String) :
    ∀ a b : String,
      l.foldl (fun r s => r ++ s) (a ++ b) =
        a ++ l.foldl (fun r s => r ++ s) b := by
  induction l with
  | nil => intro a b; simp
  | cons c t ih =>
    intro a b
    simp only [List.foldl_cons]
    rw [String.append_assoc, ih]

theorem stringJoin_cons (a : String) (l : List String) :
    String.join (a :: l) = a ++ String.join l := by
  simp only [String.join, List.foldl_cons, String.empty_append]
  have h := foldl_append_str l a ""
  rw [String.append_empty] at h
  exact h

theorem specIndexEntries_nil (package_name : String) :
    specIndexEntries package_name [] = "" := rfl

theorem specIndexEntries_cons (package_name f : String) (rest : List String) :
    specIndexEntries package_name (f :: rest) =
      (if firstField f = package_name then entryLine f (secondField f) else "")
        ++ specIndexEntries package_name rest := by
  by_cases hp : firstField f = package_name
  · simp only [specIndexEntries, List.filter_cons, hp]
    simp [stringJoin_cons]
  · simp only [specIndexEntries, List.filter_cons, hp]
    simp

theorem createIndexLoop_cons_ok (package_name : String) (acc : String)
    (f : String) (rest : List String) (h2 : 2 ≤ (pySplit '-' f).length) :
    createIndexLoop package_name acc (f :: rest) =
      createIndexLoop package_name
        (acc ++ (if firstField f = package_name
          then entryLine f (secondField f) else "")) rest := by
  simp only [createIndexLoop, pyGet_split_zero, pyGet_split_one f h2,
    exceptBind_ok]
  by_cases hp : firstField f = package_name
  · rw [if_pos hp, if_pos hp]
  · rw [if_neg hp, if_neg hp, String.append_empty]

theorem createIndexLoop_ok_run (package_name : String) (files : List String) :
    ∀ acc : String,
      (∀ f ∈ files, 2 ≤ (pySplit '-' f).length) →
      createIndexLoop package_name acc files =
        Except.ok (acc ++ specIndexEntries package_name files ++ indexFooter) := by
  induction files with
  | nil =>
    intro acc _
    simp [createIndexLoop, specIndexEntries_nil, String.append_empty]
  | cons f rest ih =>
    intro acc hwf
    rw [createIndexLoop_cons_ok package_name acc f rest
      (hwf f (List.mem_cons_self f rest))]
    rw [ih _ (fun g hg => hwf g (List.mem_cons_of_mem f hg))]
    rw [specIndexEntries_cons]
    simp [String.append_assoc]

/-! ### The claims -/

/-- C1: for every package, the reconciler's needed-versions output is exactly
the ordered sequence of every tag from the tag list that is absent from the
existing-versions collection, in the same relative order, computed by one
membership test per tag in a single linear pass — the source's filter on
line 92 coincides with the spec's single-pass algorithm `neededSpec`. -/
theorem C1_needed_versions_matches_spec (existing tags : List String) :
    needed_versions existing tags = neededSpec existing tags := by
  induction tags with
  | nil => rfl
  | cons t rest ih =>
    by_cases h : t ∈ existing
    · simpa [needed_versions, List.filter_cons, neededSpec, h] using ih
    · simpa [needed_versions, List.filter_cons, neededSpec, h] using ih

/-- C2: every element of the needed-versions result is a member of the tag
list and is not a member of the existing-versions collection. -/
theorem C2_needed_subset_and_disjoint (existing tags : List String)
    (v : String) (hv : v ∈ needed_versions existing tags) :
    v ∈ tags ∧ v ∉ existing := by
  have h := List.mem_filter.mp hv
  exact ⟨h.1, of_decide_eq_true h.2⟩

theorem C2_needed_subset_and_disjoint_witness :
    ("b" : String) ∈ ["a", "b"] ∧ ("b" : String) ∉ ["a"] :=
  C2_needed_subset_and_disjoint ["a"] ["a", "b"] "b" (by decide)

/-- C3: scanning a package's artifact filenames registers, for each filename
whose first '-'-field equals the package name, the second '-'-field, plus a
single-character `v` alias of it when its first character is a digit; both
forms end up in the existing-versions collection, in file order. -/
theorem C3_detect_existing_registers_both_forms (package_name : String)
    (files : List String)
    (hwf : ∀ f ∈ files, 2 ≤ (pySplit '-' f).length ∧
      (firstField f = package_name → secondField f ≠ "")) :
    detect_existing package_name files =
      Except.ok (files.flatMap (specRegisteredForms package_name)) := by
  have h := detectLoop_ok_run package_name files [] hwf
  simpa [detect_existing] using h

theorem C3_detect_existing_registers_both_forms_witness :
    (∀ f ∈ ["foo-1.2.3-py3-none-any.whl", "bar-0.1-py3-none-any.whl"],
      2 ≤ (pySplit '-' f).length ∧ (firstField f = "foo" → secondField f ≠ "")) ∧
    detect_existing "foo"
        ["foo-1.2.3-py3-none-any.whl", "bar-0.1-py3-none-any.whl"] =
      Except.ok ((["foo-1.2.3-py3-none-any.whl",
        "bar-0.1-py3-none-any.whl"] : List String).flatMap
          (specRegisteredForms "foo")) :=
  ⟨by decide, C3_detect_existing_registers_both_forms "foo" _ (by decide)⟩

/-- C4: contrary to the claim, an absent configuration file does not degrade
to a no-op run: `main` substitutes an empty configuration, but
`WheelhouseBuilder.__init__` then subscripts `config['repos']` and raises
`KeyError('repos')` whatever the filesystem contains. -/
theorem C4_missing_config_raises_keyerror (glob : String → List String) :
    builderInit emptyConfig glob = Except.error (PyErr.keyError "repos") := rfl

/-- C5: reconciliation is idempotent — the same inputs give the same result,
and after adding every needed version to the existing-versions collection a
further run returns the empty list. -/
theorem C5_reconciliation_idempotent (existing tags : List String) :
    needed_versions existing tags = needed_versions existing tags ∧
    needed_versions (existing ++ needed_versions existing tags) tags = [] := by
  refine ⟨rfl, ?_⟩
  rw [needed_versions, List.filter_eq_nil_iff]
  intro t ht hdec
  have hni := of_decide_eq_true hdec
  apply hni
  rw [List.mem_append]
  by_cases h : t ∈ existing
  · exact Or.inl h
  · exact Or.inr (List.mem_filter.mpr ⟨ht, decide_eq_true h⟩)

/-- C6: when no tag is already present in the existing-versions collection,
the needed-versions result is the full tag list in order. -/
theorem C6_disjoint_yields_all_tags (existing tags : List String)
    (h : ∀ v ∈ existing, v ∉ tags) :
    needed_versions existing tags = tags := by
  rw [needed_versions, List.filter_eq_self]
  intro a ha
  exact decide_eq_true (fun hmem => h a hmem ha)

theorem C6_disjoint_yields_all_tags_witness :
    (∀ v ∈ (["x"] : List String), v ∉ (["1.0.0", "1.1.0"] : List String)) ∧
    needed_versions ["x"] ["1.0.0", "1.1.0"] = ["1.0.0", "1.1.0"] :=
  ⟨by decide, C6_disjoint_yields_all_tags ["x"] ["1.0.0", "1.1.0"] (by decide)⟩

/-- C7: the artifact filename `foo-1.2.3-py3-none-any.whl` scanned for
package `foo` registers exactly `1.2.3` and its alias `v1.2.3`, and
reconciling that collection against `["v1.2.3", "v1.3.0"]` needs exactly
`["v1.3.0"]`. -/
theorem C7_alias_matching_example :
    detect_existing "foo" ["foo-1.2.3-py3-none-any.whl"] =
      Except.ok ["1.2.3", "v1.2.3"] ∧
    needed_versions ["1.2.3", "v1.2.3"] ["v1.2.3", "v1.3.0"] = ["v1.3.0"] :=
  ⟨rfl, rfl⟩

theorem pyUnpack2_err {α : Type} (l : List α) (h : l.length ≠ 2) :
    pyUnpack2 l = Except.error PyErr.valueError := by
  rcases l with _ | ⟨a, rest⟩
  · rfl
  rcases rest with _ | ⟨b, rest2⟩
  · rfl
  rcases rest2 with _ | ⟨c, rest3⟩
  · exact absurd rfl h
  · rfl

/-- C8 counterexample: the artifact filename `bar--x.whl` has an empty
version field, so the claim requires the scan to fail fast; the scan for
package `foo` instead completes without error, silently skipping it. -/
theorem C8_counterexample_silent_skip :
    detect_existing "foo" ["bar--x.whl"] = Except.ok [] := rfl

/-- C8 (amended): a filename with fewer than two '-'-separated fields, or
with an empty version field when its first field equals the package name,
makes the scan fail fast with a generic index-out-of-range error; an empty
version field on a filename whose first field differs from the package name
is silently skipped and the scan completes. -/
theorem C8_amended_scan_error_shape :
    (∀ (package_name : String) (files : List String) (f : String),
      f ∈ files →
      ((pySplit '-' f).length < 2 ∨
        (2 ≤ (pySplit '-' f).length ∧ firstField f = package_name ∧
          secondField f = "")) →
      detect_existing package_name files = Except.error PyErr.indexError) ∧
    (∀ (package_name : String) (files : List String),
      (∀ f ∈ files, 2 ≤ (pySplit '-' f).length ∧ firstField f ≠ package_name) →
      detect_existing package_name files = Except.ok []) := by
  constructor
  · intro package_name files f hf hbad
    exact detectLoop_err_run package_name files f hf hbad []
  · intro package_name files hwf
    have hnil : ∀ gs : List String,
        (∀ f ∈ gs, firstField f ≠ package_name) →
        gs.flatMap (specRegisteredForms package_name) = [] := by
      intro gs
      induction gs with
      | nil => intro _; rfl
      | cons g rest ih =>
        intro hws
        rw [List.flatMap_cons]
        have hzero : specRegisteredForms package_name g = [] := by
          simp only [specRegisteredForms]
          rw [if_neg (hws g (List.mem_cons_self g rest))]
        rw [hzero, List.nil_append]
        exact ih (fun x hx => hws x (List.mem_cons_of_mem g hx))
    have h := detectLoop_ok_run package_name files []
      (fun f hf => ⟨(hwf f hf).1, fun hp => absurd hp (hwf f hf).2⟩)
    rw [detect_existing, h, List.nil_append,
      hnil files (fun f hf => (hwf f hf).2)]

theorem C8_amended_scan_error_shape_witness :
    detect_existing "foo" ["foo.whl"] = Except.error PyErr.indexError ∧
    detect_existing "foo" ["bar--x.whl"] = Except.ok [] :=
  ⟨C8_amended_scan_error_shape.1 "foo" ["foo.whl"] "foo.whl" (by decide)
      (Or.inl (by decide)),
    C8_amended_scan_error_shape.2 "foo" ["bar--x.whl"] (by decide)⟩

/-- C9: the per-package index page is the fixed header, then exactly one
anchor line per artifact file whose first '-'-field equals the package name
with the filename as target and `v` plus the second field as text, in
sorted filename order, nothing for non-matching files, then the fixed
footer; and the listing order is sorted. -/
theorem C9_create_index_page (package_name : String) (files : List String)
    (hwf : ∀ f ∈ files, 2 ≤ (pySplit '-' f).length) :
    create_index package_name files =
      Except.ok (indexHeader ++
        specIndexEntries package_name (sortedFiles files) ++ indexFooter) ∧
    (sortedFiles files).Pairwise (fun a b => a ≤ b) := by
  constructor
  · rw [create_index]
    exact createIndexLoop_ok_run package_name (sortedFiles files) indexHeader
      (fun f hf => hwf f (List.mem_mergeSort.mp hf))
  · have htrans : ∀ a b c : String,
        decide (a ≤ b) = true → decide (b ≤ c) = true →
          decide (a ≤ c) = true := fun a b c hab hbc =>
      decide_eq_true (le_trans (of_decide_eq_true hab) (of_decide_eq_true hbc))
    have htotal : ∀ a b : String,
        (decide (a ≤ b) || decide (b ≤ a)) = true := by
      intro a b
      rcases le_total a b with h | h <;> simp [h]
    have hs := List.sorted_mergeSort htrans htotal files
    exact hs.imp (fun hab => of_decide_eq_true hab)

theorem C9_create_index_page_witness :
    (∀ f ∈ (["foo-2.0-py3-none-any.whl", "foo-1.0-py3-none-any.whl",
        "bar-1.0-py3-none-any.whl"] : List String),
      2 ≤ (pySplit '-' f).length) ∧
    (create_index "foo" ["foo-2.0-py3-none-any.whl",
        "foo-1.0-py3-none-any.whl", "bar-1.0-py3-none-any.whl"] =
      Except.ok (indexHeader ++
        specIndexEntries "foo" (sortedFiles ["foo-2.0-py3-none-any.whl",
          "foo-1.0-py3-none-any.whl", "bar-1.0-py3-none-any.whl"]) ++
        indexFooter) ∧
    (sortedFiles ["foo-2.0-py3-none-any.whl", "foo-1.0-py3-none-any.whl",
        "bar-1.0-py3-none-any.whl"]).Pairwise (fun a b => a ≤ b)) :=
  ⟨by decide, C9_create_index_page "foo" _ (by decide)⟩

/-- C10: the package-name derivation accepts any repository identifier (its
split is never empty), but the per-repository pipeline step unpacks the
split into exactly two values, so any identifier that does not contain
exactly one `/` raises `ValueError` before any tag list or existing
versions are consulted. -/
theorem C10_owner_name_two_segment_precondition (repo : String) :
    repo_owner_and_package_name_from_repo repo ≠ [] ∧
    (repo.toList.count '/' ≠ 1 →
      ∀ (existing_versions : String → List String) (tags : List String),
        clone_repo existing_versions repo tags =
          Except.error PyErr.valueError) := by
  constructor
  · exact pySplit_ne_nil '/' repo
  · intro hcount existing_versions tags
    have hlen : (repo_owner_and_package_name_from_repo repo).length ≠ 2 := by
      rw [repo_owner_and_package_name_from_repo, length_pySplit]
      omega
    have hunpack := pyUnpack2_err _ hlen
    simp only [clone_repo, hunpack, exceptBind_err]

theorem C10_owner_name_two_segment_precondition_witness :
    repo_owner_and_package_name_from_repo "abc" ≠ [] ∧
    clone_repo (fun _ => []) "abc" ["v1.0"] = Except.error PyErr.valueError :=
  ⟨(C10_owner_name_two_segment_precondition "abc").1,
    (C10_owner_name_two_segment_precondition "abc").2 (by decide)
      (fun _ => []) ["v1.0"]⟩
